import Mathlib

/-!
Verification of the MiniMax provider adapter
(`src/platform/backend/src/routes/proxy/adapterV2/minimax.ts`).

The development shallowly embeds the adapter layer: the request adapter
(staged model / tool-result mutations, canonical message extraction), the
response adapter (tool-call argument parsing), the streaming accumulator
(`processChunk` / `toProviderResponse`), the TOON compression transform
(`convertToolResultsToToon`) and the factory's `extractErrorMessage`.

JavaScript `JSON.parse` is modelled by an executable fueled JSON
recognizer (`jsonParse`), and arbitrary JavaScript `unknown` values (for
`extractErrorMessage`) by the `JsVal` type with JS truthiness, property
access and `String(...)` stringification.

External collaborators that the source treats as black boxes (the
`@toon-format/toon` encoder, the provider tokenizer, the token-price
model lookup, the tool-content envelope unwrapping of
`unwrap-tool-content.ts`, `JSON.stringify` for SSE frames, and the
`Date.now()` clock) are universally quantified parameters.
-/

/-- JSON values as produced by `JSON.parse`.  Numbers keep their source
lexeme: no adapter code computes with parsed numbers, it only passes
them through, so the lexeme is a faithful carrier. -/
inductive Json where
  | null
  | bool (b : Bool)
  | num (lexeme : String)
  | str (s : String)
  | arr (items : List Json)
  | obj (fields : List (String × Json))

/-- JSON insignificant whitespace (the four characters `JSON.parse` skips). -/
def isJsonWs (c : Char) : Bool :=
  c = ' ' || c = '\t' || c = '\n' || c = '\r'

/-- Drop leading JSON whitespace. -/
def skipWs : List Char → List Char
  | [] => []
  | c :: cs => if isJsonWs c then skipWs cs else c :: cs

/-- Longest prefix of decimal digits, with the rest of the input. -/
def spanDigits : List Char → List Char × List Char
  | [] => ([], [])
  | c :: cs =>
    if c.isDigit then
      let (d, r) := spanDigits cs
      (c :: d, r)
    else ([], c :: cs)

/-- Value of one hexadecimal digit, `16` for a non-hex-digit character. -/
def hexVal (c : Char) : Nat :=
  if '0' ≤ c ∧ c ≤ '9' then c.toNat - '0'.toNat
  else if 'a' ≤ c ∧ c ≤ 'f' then c.toNat - 'a'.toNat + 10
  else if 'A' ≤ c ∧ c ≤ 'F' then c.toNat - 'A'.toNat + 10
  else 16

/-- Parse the body of a JSON string literal (the opening quote already
consumed), handling the escape sequences `JSON.parse` accepts. -/
def parseStringBody : Nat → List Char → String → Option (String × List Char)
  | 0, _, _ => none
  | _, [], _ => none
  | fuel + 1, c :: cs, acc =>
    if c = '"' then some (acc, cs)
    else if c = '\\' then
      match cs with
      | [] => none
      | e :: cs' =>
        if e = '"' then parseStringBody fuel cs' (acc.push '"')
        else if e = '\\' then parseStringBody fuel cs' (acc.push '\\')
        else if e = '/' then parseStringBody fuel cs' (acc.push '/')
        else if e = 'b' then parseStringBody fuel cs' (acc.push (Char.ofNat 8))
        else if e = 'f' then parseStringBody fuel cs' (acc.push (Char.ofNat 12))
        else if e = 'n' then parseStringBody fuel cs' (acc.push '\n')
        else if e = 'r' then parseStringBody fuel cs' (acc.push '\r')
        else if e = 't' then parseStringBody fuel cs' (acc.push '\t')
        else if e = 'u' then
          match cs' with
          | h1 :: h2 :: h3 :: h4 :: rest =>
            if hexVal h1 < 16 && hexVal h2 < 16 && hexVal h3 < 16 && hexVal h4 < 16 then
              let code := 4096 * hexVal h1 + 256 * hexVal h2 + 16 * hexVal h3 + hexVal h4
              parseStringBody fuel rest (acc.push (Char.ofNat code))
            else none
          | _ => none
        else none
    else if c.toNat < 32 then none
    else parseStringBody fuel cs (acc.push c)

/-- Parse a JSON number lexeme (`-? int frac? exp?`), returning the lexeme. -/
def parseNumberLexeme (cs : List Char) : Option (String × List Char) :=
  let (sign, cs1) :=
    match cs with
    | '-' :: rest => (("-" : String), rest)
    | _ => (("" : String), cs)
  match cs1 with
  | [] => none
  | c :: rest =>
    if c = '0' then
      afterInt (sign ++ "0") rest
    else if c.isDigit then
      let (d, r) := spanDigits rest
      afterInt (sign ++ String.mk (c :: d)) r
    else none
where
  afterFrac (acc : String) (cs : List Char) : Option (String × List Char) :=
    match cs with
    | e :: rest =>
      if e = 'e' || e = 'E' then
        let (es, cs2) :=
          match rest with
          | '+' :: r => (("" : String), r)
          | '-' :: r => (("-" : String), r)
          | _ => (("" : String), rest)
        match cs2 with
        | d :: _ =>
          if d.isDigit then
            let (ds, r2) := spanDigits cs2
            some (acc ++ String.mk [e] ++ es ++ String.mk ds, r2)
          else none
        | [] => none
      else some (acc, cs)
    | [] => some (acc, cs)
  afterInt (acc : String) (cs : List Char) : Option (String × List Char) :=
    match cs with
    | '.' :: rest =>
      match rest with
      | d :: _ =>
        if d.isDigit then
          let (ds, r) := spanDigits rest
          afterFrac (acc ++ "." ++ String.mk ds) r
        else none
      | [] => none
    | _ => afterFrac acc cs

mutual

/-- Fueled recursive-descent parser for one JSON value. -/
def parseJsonVal : Nat → List Char → Option (Json × List Char)
  | 0, _ => none
  | fuel + 1, cs =>
    match skipWs cs with
    | [] => none
    | c :: rest =>
      if c = 'n' then
        match rest with
        | 'u' :: 'l' :: 'l' :: r => some (Json.null, r)
        | _ => none
      else if c = 't' then
        match rest with
        | 'r' :: 'u' :: 'e' :: r => some (Json.bool true, r)
        | _ => none
      else if c = 'f' then
        match rest with
        | 'a' :: 'l' :: 's' :: 'e' :: r => some (Json.bool false, r)
        | _ => none
      else if c = '"' then
        match parseStringBody (rest.length + 1) rest "" with
        | some (s, r) => some (Json.str s, r)
        | none => none
      else if c = '-' || c.isDigit then
        match parseNumberLexeme (c :: rest) with
        | some (lex, r) => some (Json.num lex, r)
        | none => none
      else if c = '[' then
        match skipWs rest with
        | ']' :: r => some (Json.arr [], r)
        | cs2 =>
          match parseJsonVal fuel cs2 with
          | some (v, r) =>
            match parseJsonArrTail fuel r with
            | some (vs, r2) => some (Json.arr (v :: vs), r2)
            | none => none
          | none => none
      else if c = '{' then
        match skipWs rest with
        | '}' :: r => some (Json.obj [], r)
        | cs2 =>
          match parseJsonField fuel cs2 with
          | some (kv, r) =>
            match parseJsonObjTail fuel r with
            | some (kvs, r2) => some (Json.obj (kv :: kvs), r2)
            | none => none
          | none => none
      else none

/-- Remaining array elements: `,` separated values up to `]`. -/
def parseJsonArrTail : Nat → List Char → Option (List Json × List Char)
  | 0, _ => none
  | fuel + 1, cs =>
    match skipWs cs with
    | ']' :: r => some ([], r)
    | ',' :: r =>
      match parseJsonVal fuel r with
      | some (v, r2) =>
        match parseJsonArrTail fuel r2 with
        | some (vs, r3) => some (v :: vs, r3)
        | none => none
      | none => none
    | _ => none

/-- One `"key": value` member of a JSON object. -/
def parseJsonField : Nat → List Char → Option ((String × Json) × List Char)
  | 0, _ => none
  | fuel + 1, cs =>
    match skipWs cs with
    | '"' :: rest =>
      match parseStringBody (rest.length + 1) rest "" with
      | some (k, r) =>
        match skipWs r with
        | ':' :: r2 =>
          match parseJsonVal fuel r2 with
          | some (v, r3) => some ((k, v), r3)
          | none => none
        | _ => none
      | none => none
    | _ => none

/-- Remaining object members: `,` separated `"key": value` up to `}`. -/
def parseJsonObjTail : Nat → List Char → Option (List (String × Json) × List Char)
  | 0, _ => none
  | fuel + 1, cs =>
    match skipWs cs with
    | '}' :: r => some ([], r)
    | ',' :: r =>
      match parseJsonField fuel r with
      | some (kv, r2) =>
        match parseJsonObjTail fuel r2 with
        | some (kvs, r3) => some (kv :: kvs, r3)
        | none => none
      | none => none
    | _ => none

end

/-- Model of JavaScript `JSON.parse(s)`: `some v` when `s` is one JSON
value (with surrounding whitespace), `none` when `JSON.parse` would
throw.  The fuel `s.length + 2` dominates the recursion depth, which
consumes at least one input character per unit spent. -/
def jsonParse (s : String) : Option Json :=
  let cs := s.toList
  match parseJsonVal (cs.length + 2) cs with
  | some (v, rest) => if skipWs rest = [] then some v else none
  | none => none

example : jsonParse "invalid json\x7b" = none := by rfl
example : jsonParse "\x7b\x7d" = some (Json.obj []) := by rfl
example : jsonParse "\x7b\"location\":\"NY\"\x7d" =
    some (Json.obj [("location", Json.str "NY")]) := by rfl
example : jsonParse "not json" = none := by rfl
example : jsonParse " [1, true, null] " =
    some (Json.arr [Json.num "1", Json.bool true, Json.null]) := by rfl
example : jsonParse "\x7b\"temperature\": 72, \"unit\": \"fahrenheit\"\x7d" =
    some (Json.obj [("temperature", Json.num "72"), ("unit", Json.str "fahrenheit")]) := by rfl
example : jsonParse "\x7b\"a\":1" = none := by rfl
example : jsonParse "01" = none := by rfl
example : jsonParse "\"tail\"x" = none := by rfl

-- =============================================================================
-- JavaScript `unknown` values, for `minimaxAdapterFactory.extractErrorMessage`
-- =============================================================================

/-- A JavaScript value of type `unknown`, as far as the error-extraction
code can observe it: `undefined`, `null`, booleans, (integer) numbers,
strings, arrays, plain objects, and `Error` instances carrying a
`message`. -/
inductive JsVal where
  | undefinedVal
  | nullv
  | bool (b : Bool)
  | num (n : Int)
  | str (s : String)
  | arr (items : List JsVal)
  | obj (fields : List (String × JsVal))
  | errObj (message : String)

/-- First binding of `key` in a JS object's field list. -/
def lookupField : List (String × JsVal) → String → Option JsVal
  | [], _ => none
  | (k, v) :: rest, key => if k = key then some v else lookupField rest key

/-- JavaScript optional-chained property access `v?.[key]`: `undefined`
on missing properties and on primitives. -/
def getProp (v : JsVal) (key : String) : JsVal :=
  match v with
  | .obj fields => (lookupField fields key).getD .undefinedVal
  | .errObj m => if key = "message" then .str m else .undefinedVal
  | _ => .undefinedVal

/-- JavaScript truthiness (every array and object is truthy). -/
def jsTruthy : JsVal → Bool
  | .undefinedVal => false
  | .nullv => false
  | .bool b => b
  | .num n => n != 0
  | .str s => s != ""
  | .arr _ => true
  | .obj _ => true
  | .errObj _ => true

/-- Decimal digits of a natural number, most significant first, fueled
([] for 0 or once fuel runs out). -/
def natDigitsAux : Nat → Nat → List Char
  | 0, _ => []
  | fuel + 1, k =>
    if k = 0 then []
    else natDigitsAux fuel (k / 10) ++ [Char.ofNat (k % 10 + '0'.toNat)]

/-- Decimal rendering of a natural number. -/
def natToDecimal (k : Nat) : String :=
  if k = 0 then "0" else String.mk (natDigitsAux (k + 1) k)

mutual

/-- JavaScript `String(v)` for the modelled values (default
stringification: no custom `toString` overrides;
`Array.prototype.toString` joins the elements with commas, so
`String([])` is the empty string). -/
def jsToString : JsVal → String
  | .undefinedVal => "undefined"
  | .nullv => "null"
  | .bool b => if b then "true" else "false"
  | .num n => if n < 0 then "-" ++ natToDecimal n.natAbs else natToDecimal n.natAbs
  | .str s => s
  | .arr items => jsJoin items
  | .obj _ => "[object Object]"
  | .errObj m => if m = "" then "Error" else "Error: " ++ m

/-- Comma-join of array elements, rendering `null` and `undefined`
elements as empty, as `Array.prototype.join` does. -/
def jsJoin : List JsVal → String
  | [] => ""
  | e :: rest =>
    (match e with
     | .undefinedVal => ""
     | .nullv => ""
     | x => jsToString x) ++
    (match rest with
     | [] => ""
     | _ :: _ => "," ++ jsJoin rest)

end

/-- `minimaxAdapterFactory.extractErrorMessage`: return `err?.error?.message`
if truthy, else `err?.message` if truthy, else `String(error)`. -/
def extractErrorMessage (error : JsVal) : JsVal :=
  let m1 := getProp (getProp error "error") "message"
  if jsTruthy m1 then m1
  else
    let m2 := getProp error "message"
    if jsTruthy m2 then m2
    else .str (jsToString error)

example : extractErrorMessage
    (.obj [("error", .obj [("message", .str "bad key")])]) = .str "bad key" := by rfl
example : extractErrorMessage (.errObj "boom") = .str "boom" := by rfl
example : extractErrorMessage (.str "") = .str "" := by rfl
example : extractErrorMessage .nullv = .str "null" := by rfl
example : extractErrorMessage (.num (-42)) = .str "-42" := by rfl
example : extractErrorMessage (.arr []) = .str "" := by rfl
example : extractErrorMessage (.arr [.num 1, .arr [.num 2, .nullv]]) = .str "1,2," := by rfl

-- =============================================================================
-- MiniMax request data model (types/llm-providers/minimax)
-- =============================================================================

/-- A MiniMax tool call as it appears in assistant messages and responses:
either `{id, type: "function", function: {arguments, name}}` or
`{id, type: "custom", custom: {input, name}}` (`messages.ts`). -/
inductive MmToolCall where
  | function (id : String) (name : String) (arguments : String)
  | custom (id : String) (name : String) (input : String)

/-- The correlation id of a tool call. -/
def MmToolCall.callId : MmToolCall → String
  | .function id _ _ => id
  | .custom id _ _ => id

/-- The tool name of a tool call (`function.name` for function calls,
`custom.name` for custom calls), as read by `findToolNameInMessages`. -/
def MmToolCall.callName : MmToolCall → String
  | .function _ name _ => name
  | .custom _ name _ => name

/-- `string | ContentPart[]` message content.  Non-string content parts
are only ever passed through by the adapter, so they are carried as
opaque `Json` blobs. -/
inductive StrOrParts where
  | str (s : String)
  | parts (ps : List Json)

/-- An assistant message (`AssistantMessageParamSchema`): the fields the
adapter never inspects are carried as opaque `Json` options. -/
structure AssistantMsg where
  audio : Option Json := none
  content : Option Json := none
  function_call : Option Json := none
  name : Option String := none
  refusal : Option String := none
  tool_calls : Option (List MmToolCall) := none

/-- A tool-result message (`ToolMessageParamSchema`). -/
structure ToolMsg where
  content : StrOrParts
  tool_call_id : String

/-- A developer / system / user message: the adapter only reads its role. -/
structure SimpleMsg where
  content : StrOrParts
  name : Option String := none

/-- One element of `ChatCompletionsRequest["messages"]`
(`MessageParamSchema`), discriminated by `role`. -/
inductive MmMessage where
  | developer (m : SimpleMsg)
  | system (m : SimpleMsg)
  | user (m : SimpleMsg)
  | assistant (m : AssistantMsg)
  | tool (m : ToolMsg)
  | funcMsg (content : Option String) (name : String)

/-- The `role` string of a message, as used by `toCommonFormat`. -/
def MmMessage.roleOf : MmMessage → String
  | .developer _ => "developer"
  | .system _ => "system"
  | .user _ => "user"
  | .assistant _ => "assistant"
  | .tool _ => "tool"
  | .funcMsg _ _ => "function"

/-- A declared tool (`ToolSchema`): function tools expose
`{name, description?, parameters?, strict?}`, custom tools are carried
opaquely (the adapter only converts function tools). -/
inductive MmTool where
  | function (name : String) (description : Option String)
      (parameters : Option Json) (strict : Option Bool)
  | custom (payload : Json)

/-- `MiniMax.Types.ChatCompletionsRequest` (`ChatCompletionRequestSchema`,
plus the `reasoning_split` passthrough field the adapter destructures). -/
structure MiniMaxRequest where
  model : String
  messages : List MmMessage
  tools : Option (List MmTool) := none
  tool_choice : Option Json := none
  temperature : Option ℚ := none
  max_tokens : Option Nat := none
  stream : Option Bool := none
  reasoning_split : Option Bool := none

-- =============================================================================
-- Canonical (common) model
-- =============================================================================

/-- An `unknown`-typed canonical content value: a parsed JSON document,
a raw string (JSON parse fallback), or passed-through content parts. -/
inductive UnknownVal where
  | json (j : Json)
  | str (s : String)
  | parts (ps : List Json)

/-- `CommonToolResult`. -/
structure CommonToolResult where
  id : String
  name : String
  content : UnknownVal
  isError : Bool

/-- `CommonToolCall`: arguments are always a materialized JSON value. -/
structure CommonToolCall where
  id : String
  name : String
  arguments : Json

/-- `CommonMessage` as far as the MiniMax adapter populates it. -/
structure CommonMessage where
  role : String
  toolCalls : Option (List CommonToolResult) := none

/-- `UsageView`. -/
structure UsageView where
  inputTokens : Nat
  outputTokens : Nat

-- =============================================================================
-- MiniMaxRequestAdapter
-- =============================================================================

/-- The adapter's instance state: the held request (replaced by
`applyToonCompression`), the staged model override and the staged
tool-result updates (`Record<string, string>`, insertion ordered with
later writes overwriting earlier ones for the same key). -/
structure RequestAdapterState where
  request : MiniMaxRequest
  modifiedModel : Option String
  toolResultUpdates : List (String × String)

/-- `minimaxAdapterFactory.createRequestAdapter` / the constructor. -/
def createRequestAdapter (request : MiniMaxRequest) : RequestAdapterState :=
  { request := request, modifiedModel := none, toolResultUpdates := [] }

/-- `getModel()`: the staged override if any, else the request's model. -/
def getModel (a : RequestAdapterState) : String :=
  a.modifiedModel.getD a.request.model

/-- `isStreaming()`: strict equality against `true`. -/
def isStreaming (a : RequestAdapterState) : Bool :=
  a.request.stream = some true

/-- `setModel(model)`: stage a model override. -/
def setModel (a : RequestAdapterState) (model : String) : RequestAdapterState :=
  { a with modifiedModel := some model }

/-- `Record<string, string>` read: value of the first (unique) binding. -/
def recordGet : List (String × String) → String → Option String
  | [], _ => none
  | (k, v) :: rest, key => if k = key then some v else recordGet rest key

/-- `Record<string, string>` write: overwrite the binding if the key is
present, else append it. -/
def recordSet : List (String × String) → String → String → List (String × String)
  | [], key, val => [(key, val)]
  | (k, v) :: rest, key, val =>
    if k = key then (k, val) :: rest else (k, v) :: recordSet rest key val

/-- `updateToolResult(toolCallId, newContent)`: stage a tool-result
content replacement; a later call for the same id overwrites. -/
def updateToolResult (a : RequestAdapterState) (toolCallId newContent : String) :
    RequestAdapterState :=
  { a with toolResultUpdates := recordSet a.toolResultUpdates toolCallId newContent }

/-- `findToolNameInMessages`, inner loop over one assistant message's
`tool_calls`: name of the first entry whose id matches. -/
def matchToolCall : List MmToolCall → String → Option String
  | [], _ => none
  | tc :: rest, target =>
    if tc.callId = target then some tc.callName else matchToolCall rest target

/-- `findToolNameInMessages`, outer loop viewed on the reversed list
(the source iterates `i` from `messages.length - 1` down to `0`). -/
def findToolNameRev : List MmMessage → String → Option String
  | [], _ => none
  | m :: rest, target =>
    match m with
    | .assistant a =>
      match a.tool_calls with
      | some tcs =>
        match matchToolCall tcs target with
        | some name => some name
        | none => findToolNameRev rest target
      | none => findToolNameRev rest target
    | _ => findToolNameRev rest target

/-- `MiniMaxRequestAdapter.findToolNameInMessages`: scan the message list
backward for the nearest assistant message carrying a tool call with the
given id; `null` when none matches. -/
def findToolNameInMessages (messages : List MmMessage) (toolCallId : String) :
    Option String :=
  findToolNameRev messages.reverse toolCallId

/-- Canonical content of a tool message: JSON-parse string content with
the raw string as fallback; pass non-string content through. -/
def toolContentVal : StrOrParts → UnknownVal
  | .str s =>
    match jsonParse s with
    | some j => .json j
    | none => .str s
  | .parts ps => .parts ps

/-- `MiniMaxRequestAdapter.getToolResults` on a message list: every tool
message becomes a `CommonToolResult` with the backward-resolved tool name
(`"unknown"` when unresolved) and best-effort-parsed content. -/
def getToolResults (messages : List MmMessage) : List CommonToolResult :=
  messages.filterMap fun m =>
    match m with
    | .tool t =>
      some
        { id := t.tool_call_id,
          name := (findToolNameInMessages messages t.tool_call_id).getD "unknown",
          content := toolContentVal t.content,
          isError := false }
    | _ => none

/-- `MiniMaxRequestAdapter.toCommonFormat`: one `CommonMessage` per input
message; tool messages whose name resolves to a truthy (non-empty) string
additionally carry their tool result.  (`if (toolName)` in the source is
a JS truthiness test, which an empty string fails.) -/
def toCommonFormat (messages : List MmMessage) : List CommonMessage :=
  messages.map fun m =>
    match m with
    | .tool t =>
      match findToolNameInMessages messages t.tool_call_id with
      | some name =>
        if name = "" then { role := m.roleOf }
        else
          { role := m.roleOf,
            toolCalls := some
              [{ id := t.tool_call_id, name := name,
                 content := toolContentVal t.content, isError := false }] }
      | none => { role := m.roleOf }
    | _ => { role := m.roleOf }

/-- `getMessages()`. -/
def getMessages (a : RequestAdapterState) : List CommonMessage :=
  toCommonFormat a.request.messages

/-- `MiniMaxRequestAdapter.applyUpdates`: replace the content of tool
messages whose id has a staged truthy (non-empty) update.
(`updates[message.tool_call_id]` is tested for JS truthiness.) -/
def applyUpdates (messages : List MmMessage) (updates : List (String × String)) :
    List MmMessage :=
  messages.map fun m =>
    match m with
    | .tool t =>
      match recordGet updates t.tool_call_id with
      | some c => if c = "" then .tool t else .tool { t with content := .str c }
      | none => .tool t
    | _ => m

/-- `toProviderRequest()`: materialize the staged model override and
tool-result updates into a fresh request value. -/
def toProviderRequest (a : RequestAdapterState) : MiniMaxRequest :=
  let messages :=
    if a.toolResultUpdates.length > 0 then
      applyUpdates a.request.messages a.toolResultUpdates
    else a.request.messages
  { a.request with model := getModel a, messages := messages }

/-- `getOriginalRequest()`: returns the request the adapter currently
holds. -/
def getOriginalRequest (a : RequestAdapterState) : MiniMaxRequest :=
  a.request

-- =============================================================================
-- MiniMaxResponseAdapter
-- =============================================================================

/-- `choices[i].message` of a `ChatCompletionsResponse`: fields the
adapter never inspects are carried opaquely. -/
structure MmResponseMessage where
  content : Option String
  refusal : Option String := none
  role : String := "assistant"
  annotations : Option Json := none
  audio : Option Json := none
  function_call : Option Json := none
  tool_calls : Option (List MmToolCall) := none

/-- One `choices[i]` entry of a `ChatCompletionsResponse`. -/
structure MmChoice where
  finish_reason : String
  index : Nat
  logprobs : Option Json
  message : MmResponseMessage

/-- `Usage` (`ChatCompletionUsageSchema`): all three counters required. -/
structure MmUsage where
  completion_tokens : Nat
  prompt_tokens : Nat
  total_tokens : Nat

/-- `MiniMax.Types.ChatCompletionsResponse`. -/
structure MiniMaxResponse where
  id : String
  choices : List MmChoice
  created : Nat
  model : String
  object : String
  usage : Option MmUsage := none

/-- Conversion of one response tool call by `getToolCalls`: JSON-parse
the argument string, defaulting to `{}` on parse failure; id and name
are carried over unchanged. -/
def convertResponseToolCall : MmToolCall → CommonToolCall
  | .function id name args =>
    { id := id, name := name, arguments := (jsonParse args).getD (Json.obj []) }
  | .custom id name input =>
    { id := id, name := name, arguments := (jsonParse input).getD (Json.obj []) }

/-- `MiniMaxResponseAdapter.getToolCalls`: empty when there is no first
choice or it carries no `tool_calls`; otherwise the per-call conversion. -/
def getToolCalls (r : MiniMaxResponse) : List CommonToolCall :=
  match r.choices.head? with
  | none => []
  | some choice =>
    match choice.message.tool_calls with
    | none => []
    | some tcs => tcs.map convertResponseToolCall

/-- `MiniMaxResponseAdapter.getText`. -/
def getText (r : MiniMaxResponse) : String :=
  match r.choices.head? with
  | none => ""
  | some choice => choice.message.content.getD ""

/-- `MiniMaxResponseAdapter.getUsage`. -/
def getUsage (r : MiniMaxResponse) : UsageView :=
  { inputTokens := (r.usage.map (·.prompt_tokens)).getD 0,
    outputTokens := (r.usage.map (·.completion_tokens)).getD 0 }

-- =============================================================================
-- MiniMaxStreamAdapter
-- =============================================================================

/-- A tool-call delta's `function` fragment inside a stream chunk. -/
structure FunctionDelta where
  name : Option String := none
  arguments : Option String := none

/-- One entry of `delta.tool_calls` in a stream chunk. -/
structure ToolCallDelta where
  index : Nat
  id : Option String := none
  function : Option FunctionDelta := none

/-- A `reasoning_details` entry of a MiniMax stream chunk delta. -/
structure ReasoningDetail where
  text : String

/-- `delta` of a stream chunk choice. -/
structure ChunkDelta where
  content : Option String := none
  role : Option String := none
  refusal : Option String := none
  reasoning_details : Option (List ReasoningDetail) := none
  tool_calls : Option (List ToolCallDelta) := none

/-- One `choices[i]` entry of a stream chunk. -/
structure ChunkChoice where
  index : Nat
  delta : ChunkDelta
  finish_reason : Option String := none

/-- `usage` of a stream chunk: the code reads the counters defensively
(`?? 0`), so they are optional here. -/
structure ChunkUsage where
  prompt_tokens : Option Nat := none
  completion_tokens : Option Nat := none
  total_tokens : Option Nat := none

/-- `MiniMax.Types.ChatCompletionChunk`. -/
structure MiniMaxStreamChunk where
  id : String
  object : String := "chat.completion.chunk"
  created : Nat := 0
  model : String
  choices : List ChunkChoice
  usage : Option ChunkUsage := none

/-- One accumulating tool call in `StreamAccumulatorState.toolCalls`. -/
structure AccToolCall where
  id : String
  name : String
  arguments : String

/-- `StreamAccumulatorState.timing`. -/
structure StreamTiming where
  startTime : Nat
  firstChunkTime : Option Nat

/-- `StreamAccumulatorState` plus the adapter's private
`currentToolCallIndices` map (stream index → position in `toolCalls`). -/
structure StreamState where
  responseId : String
  model : String
  text : String
  toolCalls : List AccToolCall
  rawToolCallEvents : List MiniMaxStreamChunk
  usage : Option UsageView
  stopReason : Option String
  timing : StreamTiming
  toolCallIndices : List (Nat × Nat)

/-- The stream adapter constructor, `startTime` being the `Date.now()`
reading at construction. -/
def initStreamState (startTime : Nat) : StreamState :=
  { responseId := "", model := "", text := "", toolCalls := [],
    rawToolCallEvents := [], usage := none, stopReason := none,
    timing := { startTime := startTime, firstChunkTime := none },
    toolCallIndices := [] }

/-- `ChunkProcessingResult`. -/
structure ChunkProcessingResult where
  sseData : Option String
  isToolCallChunk : Bool
  isFinal : Bool

/-- Replace `st.timing`, keeping every other accumulator field. -/
def setTiming (st : StreamState) (t : StreamTiming) : StreamState :=
  { st with timing := t }

/-- Association lookup in `currentToolCallIndices`. -/
def lookupIdx : List (Nat × Nat) → Nat → Option Nat
  | [], _ => none
  | (k, v) :: rest, key => if k = key then some v else lookupIdx rest key

/-- Update the `n`-th element of a list in place (identity when out of
bounds, which the accumulator's invariant rules out). -/
def modifyNth (l : List AccToolCall) (n : Nat) (f : AccToolCall → AccToolCall) :
    List AccToolCall :=
  match l[n]? with
  | some x => l.set n (f x)
  | none => l

/-- Apply one tool-call delta's field updates to an accumulator entry:
truthy `id`/`name` overwrite, truthy `arguments` append. -/
def updateAcc (tcd : ToolCallDelta) (tc : AccToolCall) : AccToolCall :=
  let tc :=
    match tcd.id with
    | some i => if i = "" then tc else { tc with id := i }
    | none => tc
  let tc :=
    match tcd.function.bind (·.name) with
    | some n => if n = "" then tc else { tc with name := n }
    | none => tc
  match tcd.function.bind (·.arguments) with
  | some a => if a = "" then tc else { tc with arguments := tc.arguments ++ a }
  | none => tc

/-- The body of the `for (const toolCallDelta of delta.tool_calls)` loop
over the only accumulator components it reads or writes — the ordered
tool-call list and the index map: first sighting of a stream index
allocates a new ordered entry, then the delta's fields are folded into
the entry the index maps to. -/
def applyToolCallDelta (acc : List AccToolCall × List (Nat × Nat))
    (tcd : ToolCallDelta) : List AccToolCall × List (Nat × Nat) :=
  let acc :=
    if (lookupIdx acc.2 tcd.index).isNone then
      (acc.1 ++
        [{ id := tcd.id.getD "", name := (tcd.function.bind (·.name)).getD "",
           arguments := "" }],
       acc.2 ++ [(tcd.index, acc.1.length)])
    else acc
  match lookupIdx acc.2 tcd.index with
  | none => acc
  | some tci => (modifyNth acc.1 tci (updateAcc tcd), acc.2)

/-- `data: <payload>\n\n` SSE framing. -/
def sseFrame (payload : String) : String :=
  "data: " ++ payload ++ "\n\n"

/-- `processChunk` after the `firstChunkTime` update, parameterized by
`stringify`, the `JSON.stringify` serialization of a chunk. -/
def processChunkCore (stringify : MiniMaxStreamChunk → String) (st : StreamState)
    (chunk : MiniMaxStreamChunk) : StreamState × ChunkProcessingResult :=
  let st := { st with responseId := chunk.id, model := chunk.model }
  let st :=
    match chunk.usage with
    | some u =>
      let uv : UsageView :=
        { inputTokens := u.prompt_tokens.getD 0,
          outputTokens := u.completion_tokens.getD 0 }
      { st with usage := some uv }
    | none => st
  match chunk.choices.head? with
  | none => (st, { sseData := none, isToolCallChunk := false, isFinal := st.usage.isSome })
  | some choice =>
    let textStep : StreamState × Option String :=
      match choice.delta.content with
      | some s =>
        if s = "" then (st, none)
        else ({ st with text := st.text ++ s }, some (sseFrame (stringify chunk)))
      | none => (st, none)
    let st := textStep.1
    let sseData :=
      if choice.delta.reasoning_details.isSome then some (sseFrame (stringify chunk))
      else textStep.2
    let toolStep : StreamState × Bool :=
      match choice.delta.tool_calls with
      | some tcds =>
        let acc := tcds.foldl applyToolCallDelta (st.toolCalls, st.toolCallIndices)
        ({ st with
             toolCalls := acc.1,
             toolCallIndices := acc.2,
             rawToolCallEvents := st.rawToolCallEvents ++ [chunk] }, true)
      | none => (st, false)
    let st := toolStep.1
    let st :=
      match choice.finish_reason with
      | some r => if r = "" then st else { st with stopReason := some r }
      | none => st
    (st, { sseData := sseData, isToolCallChunk := toolStep.2, isFinal := st.usage.isSome })

/-- The `firstChunkTime` latch: record `now` if no chunk was seen yet. -/
def bumpFirst (t : StreamTiming) (now : Nat) : StreamTiming :=
  if t.firstChunkTime = none then { t with firstChunkTime := some now } else t

/-- The `firstChunkTime` latch at the top of `processChunk`, `now` being
the `Date.now()` reading. -/
def bumpTiming (st : StreamState) (now : Nat) : StreamState :=
  setTiming st (bumpFirst st.timing now)

/-- `MiniMaxStreamAdapter.processChunk`. -/
def processChunk (stringify : MiniMaxStreamChunk → String) (st : StreamState)
    (chunk : MiniMaxStreamChunk) (now : Nat) : StreamState × ChunkProcessingResult :=
  processChunkCore stringify (bumpTiming st now) chunk

/-- Feed a chunk sequence in order to the accumulator; `clock i` is the
`Date.now()` reading observed while processing the `i`-th chunk of the
list.  Returns the final state and the per-chunk results in order. -/
def runStream (stringify : MiniMaxStreamChunk → String) (clock : Nat → Nat)
    (st : StreamState) : List MiniMaxStreamChunk → StreamState × List ChunkProcessingResult
  | [] => (st, [])
  | c :: cs =>
    let step := processChunk stringify st c (clock 0)
    let rest := runStream stringify (fun i => clock (i + 1)) step.1 cs
    (rest.1, step.2 :: rest.2)

/-- The per-chunk results of a full run. -/
def runResults (stringify : MiniMaxStreamChunk → String) (clock : Nat → Nat)
    (st : StreamState) (chunks : List MiniMaxStreamChunk) : List ChunkProcessingResult :=
  (runStream stringify clock st chunks).2

/-- `MiniMaxStreamAdapter.toProviderResponse`, `nowSec` being the
`Math.floor(Date.now() / 1000)` reading at synthesis time. -/
def toProviderResponse (st : StreamState) (nowSec : Nat) : MiniMaxResponse :=
  let tool_calls : Option (List MmToolCall) :=
    if st.toolCalls.length > 0 then
      some (st.toolCalls.map fun tc => .function tc.id tc.name tc.arguments)
    else none
  { id := st.responseId,
    object := "chat.completion",
    created := nowSec,
    model := st.model,
    choices :=
      [{ index := 0,
         message :=
           { role := "assistant",
             content := if st.text = "" then none else some st.text,
             refusal := none,
             tool_calls := tool_calls },
         logprobs := none,
         finish_reason := st.stopReason.getD "stop" }],
    usage := some
      { prompt_tokens := (st.usage.map (·.inputTokens)).getD 0,
        completion_tokens := (st.usage.map (·.outputTokens)).getD 0,
        total_tokens :=
          (st.usage.map (·.inputTokens)).getD 0 + (st.usage.map (·.outputTokens)).getD 0 } }

-- =============================================================================
-- TOON compression (convertToolResultsToToon / applyToonCompression)
-- =============================================================================

/-- `CompressionStats` (`toon-conversion.ts`): totals are `null` when no
tool result was compressed; the dollar figure additionally needs a
positive saving and a known token price. -/
structure CompressionStats where
  toonTokensBefore : Option Nat
  toonTokensAfter : Option Nat
  toonCostSavings : Option ℚ

/-- `ToonCompressionResult`. -/
structure ToonCompressionResult where
  tokensBefore : Option Nat
  tokensAfter : Option Nat
  costSavings : Option ℚ

/-- The per-message body of `convertToolResultsToToon`'s `messages.map`:
for a tool message with string content, unwrap the envelope
(`unwrapToolContent`, abstracted as `unwrap`), JSON-parse it, and on
success re-encode with the TOON encoder (`enc`) and measure both sides
with the provider tokenizer (`count`; the source wraps the string in a
one-user-message list, which is absorbed into `count`).  On parse
failure — the `catch` branch — the message is returned untouched and
nothing is counted. -/
def toonStep (unwrap : String → String) (enc : Json → String) (count : String → Nat)
    (m : MmMessage) : MmMessage × Option (Nat × Nat) :=
  match m with
  | .tool t =>
    match t.content with
    | .str s =>
      match jsonParse (unwrap s) with
      | some parsed =>
        let compressed := enc parsed
        (.tool { t with content := .str compressed },
          some (count (unwrap s), count compressed))
      | none => (.tool t, none)
    | .parts _ => (.tool t, none)
  | _ => (m, none)

/-- Does `convertToolResultsToToon` compress this message?  (It is a tool
message whose string content JSON-parses after envelope unwrapping.) -/
def toonEligible (unwrap : String → String) (m : MmMessage) : Bool :=
  match m with
  | .tool t =>
    match t.content with
    | .str s => (jsonParse (unwrap s)).isSome
    | .parts _ => false
  | _ => false

/-- The (tokensBefore, tokensAfter) pairs accumulated by the loop, in
message order, one per compressed tool result. -/
def toonCounted (unwrap : String → String) (enc : Json → String)
    (count : String → Nat) (messages : List MmMessage) : List (Nat × Nat) :=
  (messages.map (toonStep unwrap enc count)).filterMap (·.2)

/-- Aggregate statistics from the per-compression (before, after) token
pairs: `null` totals when nothing was compressed, a cost estimate only
for a net positive saving and a known per-model token price. -/
def toonStats (priceLookup : String → Option ℚ) (model : String)
    (counted : List (Nat × Nat)) : CompressionStats :=
  let toolResultCount := counted.length
  let totalTokensBefore := (counted.map (·.1)).sum
  let totalTokensAfter := (counted.map (·.2)).sum
  let toonCostSavings : Option ℚ :=
    if toolResultCount > 0 then
      if totalTokensAfter < totalTokensBefore then
        match priceLookup model with
        | some price =>
          some (((totalTokensBefore - totalTokensAfter : ℕ) : ℚ) * (price / 1000000))
        | none => none
      else none
    else none
  { toonTokensBefore := if toolResultCount > 0 then some totalTokensBefore else none,
    toonTokensAfter := if toolResultCount > 0 then some totalTokensAfter else none,
    toonCostSavings := toonCostSavings }

/-- `convertToolResultsToToon`: rewrite eligible tool results to their
TOON encoding, accumulate before/after token totals over the compressed
ones, and derive the aggregate stats (`priceLookup` stands for
`TokenPriceModel.findByModel(model).pricePerMillionInput`). -/
def convertToolResultsToToon (unwrap : String → String) (enc : Json → String)
    (count : String → Nat) (priceLookup : String → Option ℚ)
    (messages : List MmMessage) (model : String) :
    List MmMessage × CompressionStats :=
  ((messages.map (toonStep unwrap enc count)).map (·.1),
    toonStats priceLookup model (toonCounted unwrap enc count messages))

/-- `MiniMaxRequestAdapter.applyToonCompression(model)`: replaces the
held request with one whose messages are the compressed list, and
returns the measured savings. -/
def applyToonCompression (unwrap : String → String) (enc : Json → String)
    (count : String → Nat) (priceLookup : String → Option ℚ)
    (a : RequestAdapterState) (model : String) :
    RequestAdapterState × ToonCompressionResult :=
  let out := convertToolResultsToToon unwrap enc count priceLookup a.request.messages model
  ({ a with request := { a.request with messages := out.1 } },
    { tokensBefore := out.2.toonTokensBefore,
      tokensAfter := out.2.toonTokensAfter,
      costSavings := out.2.toonCostSavings })

-- =============================================================================
-- Staged adapter operations (for the getOriginalRequest frame property)
-- =============================================================================

/-- The adapter operations that do not replace the held request:
`setModel`, `updateToolResult`, and (state-neutral) `toProviderRequest`
materialization. -/
inductive StagedOp where
  | setModelOp (model : String)
  | updateToolResultOp (toolCallId newContent : String)
  | toProviderRequestOp

/-- Run one staged operation against the adapter state
(`toProviderRequest` builds a fresh request and leaves the state alone). -/
def runStagedOp (a : RequestAdapterState) : StagedOp → RequestAdapterState
  | .setModelOp m => setModel a m
  | .updateToolResultOp id c => updateToolResult a id c
  | .toProviderRequestOp => a

/-- Run a sequence of staged operations in order. -/
def runStagedOps (a : RequestAdapterState) (ops : List StagedOp) : RequestAdapterState :=
  ops.foldl runStagedOp a

-- =============================================================================
-- Theorems
-- =============================================================================

/-- Claim C1: for every MiniMax native request `R` on which no mutating
operation (`setModel`, `updateToolResult`, `applyToonCompression`) has
been invoked, `createRequestAdapter(R).toProviderRequest()` equals `R`. -/
theorem minimax_request_roundtrip_identity (R : MiniMaxRequest) :
    toProviderRequest (createRequestAdapter R) = R := rfl

/-- Counterexample to claim C6: `extractErrorMessage` does not return a
non-empty string for every unrecognized error value — for the
(unrecognized) empty-string error value it returns the empty string,
because `String("")` is `""`. -/
theorem minimax_extractErrorMessage_empty_cex :
    extractErrorMessage (JsVal.str "") = JsVal.str "" := rfl

/-- Claim C6 (amended): `extractErrorMessage` never throws (it is total)
and never returns `undefined`; for `{error:{message:m}}` with truthy `m`
it returns `m`; for `Error(m)` with truthy `m` it returns `m`; for every
value recognized by neither lookup it returns the stringification
`String(error)` — a string, which may be empty (e.g. for the empty
string or an empty array). -/
theorem minimax_extractErrorMessage_amended :
    (∀ e : JsVal, extractErrorMessage e ≠ JsVal.undefinedVal) ∧
    (∀ m : String, jsTruthy (JsVal.str m) = true →
      extractErrorMessage (JsVal.obj [("error", JsVal.obj [("message", JsVal.str m)])]) =
        JsVal.str m) ∧
    (∀ m : String, jsTruthy (JsVal.str m) = true →
      extractErrorMessage (JsVal.errObj m) = JsVal.str m) ∧
    (∀ e : JsVal,
      jsTruthy (getProp (getProp e "error") "message") = false →
      jsTruthy (getProp e "message") = false →
      extractErrorMessage e = JsVal.str (jsToString e)) := by
  refine ⟨?_, ?_, ?_, ?_⟩
  · intro e
    simp only [extractErrorMessage]
    split
    · rename_i h
      intro he
      rw [he] at h
      exact absurd h (by simp [jsTruthy])
    · split
      · rename_i h
        intro he
        rw [he] at h
        exact absurd h (by simp [jsTruthy])
      · simp
  · intro m hm
    simp [extractErrorMessage, getProp, lookupField, hm]
  · intro m hm
    simp [extractErrorMessage, getProp, jsTruthy] at hm ⊢
    simp [hm]
  · intro e h1 h2
    simp [extractErrorMessage, h1, h2]

/-- Witness for the amended C6 theorem at the spec's concrete inputs:
the nested error envelope, a real `Error`, and `null` as an unrecognized
value (stringified to the non-empty `"null"`). -/
theorem minimax_extractErrorMessage_amended_witness :
    extractErrorMessage (JsVal.obj [("error", JsVal.obj [("message", JsVal.str "bad key")])]) =
      JsVal.str "bad key" ∧
    extractErrorMessage (JsVal.errObj "boom") = JsVal.str "boom" ∧
    extractErrorMessage JsVal.nullv = JsVal.str "null" :=
  ⟨minimax_extractErrorMessage_amended.2.1 "bad key" (by rfl),
   minimax_extractErrorMessage_amended.2.2.1 "boom" (by rfl),
   minimax_extractErrorMessage_amended.2.2.2 JsVal.nullv (by rfl) (by rfl)⟩

/-- Claim C5: a tool call whose arguments string does not JSON-parse is
returned by `getToolCalls()` (which is total, hence never throws) with
`arguments` equal to the empty object and its id and name unchanged —
in both the `function` and `custom` shapes. -/
theorem minimax_getToolCalls_malformed_args
    (r : MiniMaxResponse) (choice : MmChoice) (tcs : List MmToolCall) (k : Nat)
    (hchoice : r.choices.head? = some choice)
    (htc : choice.message.tool_calls = some tcs) :
    (∀ id name s, tcs[k]? = some (MmToolCall.function id name s) → jsonParse s = none →
      (getToolCalls r)[k]? = some { id := id, name := name, arguments := Json.obj [] }) ∧
    (∀ id name s, tcs[k]? = some (MmToolCall.custom id name s) → jsonParse s = none →
      (getToolCalls r)[k]? = some { id := id, name := name, arguments := Json.obj [] }) := by
  have hg : getToolCalls r = tcs.map convertResponseToolCall := by
    simp [getToolCalls, hchoice, htc]
  constructor
  · intro id name s hk hp
    rw [hg, List.getElem?_map, hk]
    simp [convertResponseToolCall, hp]
  · intro id name s hk hp
    rw [hg, List.getElem?_map, hk]
    simp [convertResponseToolCall, hp]

/-- A response whose sole choice carries one function tool call with
malformed JSON arguments. -/
def c5resp : MiniMaxResponse :=
  { id := "resp", created := 0, model := "m", object := "chat.completion",
    choices :=
      [{ finish_reason := "tool_calls", index := 0, logprobs := none,
         message :=
           { content := none,
             tool_calls :=
               some [MmToolCall.function "c1" "get_weather" "invalid json\x7b"] } }] }

/-- Witness for C5: at `c5resp` the malformed arguments default to the
empty object and id/name survive. -/
theorem minimax_getToolCalls_malformed_args_witness :
    (getToolCalls c5resp)[0]? =
      some { id := "c1", name := "get_weather", arguments := Json.obj [] } :=
  (minimax_getToolCalls_malformed_args c5resp
    { finish_reason := "tool_calls", index := 0, logprobs := none,
      message :=
        { content := none,
          tool_calls :=
            some [MmToolCall.function "c1" "get_weather" "invalid json\x7b"] } }
    [MmToolCall.function "c1" "get_weather" "invalid json\x7b"] 0 rfl rfl).1
    "c1" "get_weather" "invalid json\x7b" rfl (by rfl)

/-- Claim C10: every `CommonToolResult` the request adapter produces —
from `getToolResults()` and inside the `toolCalls` of `getMessages()` —
has `isError = false`, whatever the input messages. -/
theorem minimax_toolResults_isError_false (msgs : List MmMessage) :
    (∀ r ∈ getToolResults msgs, r.isError = false) ∧
    (∀ cm ∈ toCommonFormat msgs, ∀ tcs, cm.toolCalls = some tcs →
      ∀ r ∈ tcs, r.isError = false) := by
  constructor
  · intro r hr
    simp only [getToolResults, List.mem_filterMap] at hr
    obtain ⟨m, _, hmr⟩ := hr
    cases m with
    | tool t =>
      simp only [Option.some.injEq] at hmr
      rw [← hmr]
    | developer m => exact Option.noConfusion hmr
    | system m => exact Option.noConfusion hmr
    | user m => exact Option.noConfusion hmr
    | assistant m => exact Option.noConfusion hmr
    | funcMsg c n => exact Option.noConfusion hmr
  · intro cm hcm tcs htcs r hr
    simp only [toCommonFormat, List.mem_map] at hcm
    obtain ⟨m, _, hmr⟩ := hcm
    cases m with
    | tool t =>
      rw [← hmr] at htcs
      dsimp only at htcs
      rcases hf : findToolNameInMessages msgs t.tool_call_id with _ | name
      · rw [hf] at htcs
        dsimp only at htcs
        exact Option.noConfusion htcs
      · rw [hf] at htcs
        dsimp only at htcs
        by_cases hn : name = ""
        · rw [if_pos hn] at htcs
          exact Option.noConfusion htcs
        · rw [if_neg hn] at htcs
          simp only [Option.some.injEq] at htcs
          rw [← htcs] at hr
          rw [List.mem_singleton] at hr
          rw [hr]
    | developer m => rw [← hmr] at htcs; exact Option.noConfusion htcs
    | system m => rw [← hmr] at htcs; exact Option.noConfusion htcs
    | user m => rw [← hmr] at htcs; exact Option.noConfusion htcs
    | assistant m => rw [← hmr] at htcs; exact Option.noConfusion htcs
    | funcMsg c n => rw [← hmr] at htcs; exact Option.noConfusion htcs

/-- A single unmatched tool message. -/
def c10msgs : List MmMessage := [MmMessage.tool { content := .str "x", tool_call_id := "t" }]

/-- Witness for C10 at `c10msgs`. -/
theorem minimax_toolResults_isError_false_witness :
    ({ id := "t", name := "unknown", content := UnknownVal.str "x", isError := false } :
      CommonToolResult).isError = false := by
  have h : getToolResults c10msgs =
      [{ id := "t", name := "unknown", content := UnknownVal.str "x", isError := false }] := rfl
  exact (minimax_toolResults_isError_false c10msgs).1 _
    (by rw [h]; exact List.mem_singleton.mpr rfl)

/-- The name one message contributes to the backward scan: `some` exactly
when it is an assistant message whose `tool_calls` contain an entry with
the target id (first matching entry wins inside one message). -/
def msgMatchName (m : MmMessage) (target : String) : Option String :=
  match m with
  | .assistant a =>
    match a.tool_calls with
    | some tcs => matchToolCall tcs target
    | none => none
  | _ => none

/-- The reversed scan is the first `msgMatchName` hit along the list. -/
theorem findToolNameRev_eq (l : List MmMessage) (target : String) :
    findToolNameRev l target = l.findSome? (fun m => msgMatchName m target) := by
  induction l with
  | nil => rfl
  | cons m rest ih =>
    cases m with
    | assistant a =>
      cases htc : a.tool_calls with
      | none => simp [findToolNameRev, msgMatchName, List.findSome?_cons, htc, ih]
      | some tcs =>
        cases hm : matchToolCall tcs target <;>
          simp [findToolNameRev, msgMatchName, List.findSome?_cons, htc, hm, ih]
    | developer m => simp [findToolNameRev, msgMatchName, List.findSome?_cons, ih]
    | system m => simp [findToolNameRev, msgMatchName, List.findSome?_cons, ih]
    | user m => simp [findToolNameRev, msgMatchName, List.findSome?_cons, ih]
    | tool m => simp [findToolNameRev, msgMatchName, List.findSome?_cons, ih]
    | funcMsg c n => simp [findToolNameRev, msgMatchName, List.findSome?_cons, ih]

/-- Claim C4: tool-name resolution scans backward and returns the name
from the nearest (latest-indexed) assistant message carrying a matching
tool-call id, scanning past assistant messages with no matching entry;
with no match anywhere it yields `null`, and `getToolResults` then
substitutes the placeholder name `"unknown"` instead of failing. -/
theorem minimax_tool_name_backward_scan :
    (∀ (pre post : List MmMessage) (m : MmMessage) (target name : String),
      msgMatchName m target = some name →
      (∀ m' ∈ post, msgMatchName m' target = none) →
      findToolNameInMessages (pre ++ m :: post) target = some name) ∧
    (∀ (msgs : List MmMessage) (target : String),
      (∀ m ∈ msgs, msgMatchName m target = none) →
      findToolNameInMessages msgs target = none) ∧
    (∀ (msgs : List MmMessage) (target : String),
      (∀ m ∈ msgs, msgMatchName m target = none) →
      ∀ r ∈ getToolResults msgs, r.id = target → r.name = "unknown") := by
  have hnone : ∀ (msgs : List MmMessage) (target : String),
      (∀ m ∈ msgs, msgMatchName m target = none) →
      findToolNameInMessages msgs target = none := by
    intro msgs target h
    unfold findToolNameInMessages
    rw [findToolNameRev_eq]
    exact List.findSome?_eq_none_iff.mpr fun x hx => h x (List.mem_reverse.mp hx)
  refine ⟨?_, hnone, ?_⟩
  · intro pre post m target name hm hpost
    unfold findToolNameInMessages
    rw [findToolNameRev_eq]
    rw [show (pre ++ m :: post).reverse = post.reverse ++ m :: pre.reverse by simp]
    rw [List.findSome?_append]
    have h1 : List.findSome? (fun x => msgMatchName x target) post.reverse = none :=
      List.findSome?_eq_none_iff.mpr fun x hx => hpost x (List.mem_reverse.mp hx)
    rw [h1, Option.none_or, List.findSome?_cons, hm]
  · intro msgs target h r hr hid
    simp only [getToolResults, List.mem_filterMap] at hr
    obtain ⟨m, _, hmr⟩ := hr
    cases m with
    | tool t =>
      simp only [Option.some.injEq] at hmr
      rw [← hmr] at hid ⊢
      dsimp only at hid ⊢
      rw [hid, hnone msgs target h]
      rfl
    | developer m => exact Option.noConfusion hmr
    | system m => exact Option.noConfusion hmr
    | user m => exact Option.noConfusion hmr
    | assistant m => exact Option.noConfusion hmr
    | funcMsg c n => exact Option.noConfusion hmr

/-- An older assistant message declaring tool `get_weather_v1` under id
`"a"`. -/
def c4asstOld : MmMessage :=
  .assistant { tool_calls := some [.function "a" "get_weather_v1" "\x7b\x7d"] }

/-- A later assistant message re-declaring id `"a"` with name
`get_weather_v2`. -/
def c4asstNew : MmMessage :=
  .assistant { tool_calls := some [.function "a" "get_weather_v2" "\x7b\x7d"] }

/-- An assistant message with a non-matching tool call, to be scanned
past. -/
def c4asstOther : MmMessage :=
  .assistant { tool_calls := some [.function "b" "other_tool" "\x7b\x7d"] }

/-- The tool-result message under scrutiny. -/
def c4tool : MmMessage := .tool { content := .str "ok", tool_call_id := "a" }

/-- Witness for C4: the nearest (latest) matching assistant wins even
with a later non-matching assistant in between, and an unmatched tool
result is canonicalized under the name `"unknown"`. -/
theorem minimax_tool_name_backward_scan_witness :
    findToolNameInMessages [c4asstOld, c4asstNew, c4asstOther, c4tool] "a" =
      some "get_weather_v2" ∧
    ({ id := "a", name := "unknown", content := UnknownVal.str "ok", isError := false } :
      CommonToolResult).name = "unknown" := by
  constructor
  · exact minimax_tool_name_backward_scan.1 [c4asstOld] [c4asstOther, c4tool] c4asstNew
      "a" "get_weather_v2" rfl
      (by
        intro m' hm'
        rcases List.mem_cons.mp hm' with h | h
        · rw [h]
          rfl
        · rw [List.mem_singleton.mp h]
          rfl)
  · have h : getToolResults [c4tool] =
        [{ id := "a", name := "unknown", content := UnknownVal.str "ok", isError := false }] := rfl
    exact minimax_tool_name_backward_scan.2.2 [c4tool] "a"
      (by
        intro m hm
        rw [show m = c4tool from List.mem_singleton.mp hm]
        rfl)
      _ (by rw [h]; exact List.mem_singleton.mpr rfl) rfl

/-- One `processChunk` step: the produced `isFinal` flag, and the
post-state's usage presence, both say exactly "usage was seen before this
chunk, or this chunk carries usage". -/
theorem processChunk_isFinal_usage (f : MiniMaxStreamChunk → String) (st : StreamState)
    (c : MiniMaxStreamChunk) (n : Nat) :
    ((processChunk f st c n).2).isFinal = (st.usage.isSome || c.usage.isSome) ∧
    ((processChunk f st c n).1).usage.isSome = (st.usage.isSome || c.usage.isSome) := by
  simp only [processChunk, processChunkCore, bumpTiming, setTiming, bumpFirst]
  cases hu : c.usage with
  | some u =>
    simp only [Option.isSome_some, Bool.or_true]
    cases hc : c.choices.head? with
    | none => simp
    | some choice =>
      constructor <;>
        (repeat' split) <;>
          rfl
  | none =>
    simp only [Option.isSome_none, Bool.or_false]
    cases hc : c.choices.head? with
    | none => simp
    | some choice =>
      constructor <;>
        (repeat' split) <;>
          rfl

/-- Run-level finality invariant, generalized over the starting state:
the `i`-th result's `isFinal` says exactly "the starting state had usage,
or some chunk among the first `i + 1` carries usage". -/
theorem runResults_isFinal_aux (f : MiniMaxStreamChunk → String)
    (chunks : List MiniMaxStreamChunk) :
    ∀ (st : StreamState) (clock : Nat → Nat) (i : Nat) (r : ChunkProcessingResult),
      (runResults f clock st chunks)[i]? = some r →
      r.isFinal = (st.usage.isSome || (chunks.take (i + 1)).any fun c => c.usage.isSome) := by
  induction chunks with
  | nil =>
    intro st clock i r h
    simp [runResults, runStream] at h
  | cons c cs ih =>
    intro st clock i r h
    simp only [runResults, runStream] at h
    cases i with
    | zero =>
      rw [List.getElem?_cons_zero, Option.some.injEq] at h
      rw [← h, (processChunk_isFinal_usage f st c (clock 0)).1]
      simp
    | succ i =>
      rw [List.getElem?_cons_succ] at h
      have hr := ih (processChunk f st c (clock 0)).1 (fun j => clock (j + 1)) i r h
      rw [hr, (processChunk_isFinal_usage f st c (clock 0)).2]
      rw [List.take_succ_cons, List.any_cons, Bool.or_assoc]

/-- Claim C2: on a fresh stream adapter, `processChunk` returns
`isFinal = false` for every chunk before the first usage-carrying chunk
— even if an earlier chunk carried a `finish_reason` — and
`isFinal = true` from the first usage-carrying chunk onward: the `i`-th
result's flag equals "some chunk among the first `i + 1` carries usage"
(usage, once recorded, is never cleared). -/
theorem minimax_stream_isFinal_iff_usage_seen (f : MiniMaxStreamChunk → String)
    (clock : Nat → Nat) (start : Nat) (chunks : List MiniMaxStreamChunk)
    (i : Nat) (r : ChunkProcessingResult)
    (h : (runResults f clock (initStreamState start) chunks)[i]? = some r) :
    r.isFinal = ((chunks.take (i + 1)).any fun c => c.usage.isSome) := by
  have := runResults_isFinal_aux f chunks (initStreamState start) clock i r h
  simpa [initStreamState] using this

/-- A chunk carrying only a terminal `finish_reason`. -/
def c2finChunk : MiniMaxStreamChunk :=
  { id := "r", model := "m",
    choices := [{ index := 0, delta := {}, finish_reason := some "stop" }] }

/-- The usage-bearing empty-choices termination chunk. -/
def c2usageChunk : MiniMaxStreamChunk :=
  { id := "r", model := "m", choices := [],
    usage :=
      some { prompt_tokens := some 3, completion_tokens := some 4,
             total_tokens := some 7 } }

/-- Witness for C2: a finish_reason-only chunk does not finalize, the
following usage chunk does. -/
theorem minimax_stream_isFinal_iff_usage_seen_witness :
    ({ sseData := none, isToolCallChunk := false, isFinal := false } :
      ChunkProcessingResult).isFinal = false ∧
    ({ sseData := none, isToolCallChunk := false, isFinal := true } :
      ChunkProcessingResult).isFinal = true := by
  constructor
  · have h := minimax_stream_isFinal_iff_usage_seen (fun _ => "") (fun _ => 0) 0
      [c2finChunk, c2usageChunk] 0
      { sseData := none, isToolCallChunk := false, isFinal := false } rfl
    exact h.trans (by rfl)
  · have h := minimax_stream_isFinal_iff_usage_seen (fun _ => "") (fun _ => 0) 0
      [c2finChunk, c2usageChunk] 1
      { sseData := none, isToolCallChunk := false, isFinal := true } rfl
    exact h.trans (by rfl)

/-- First tool-call fragment: allocates the entry and contributes
`{"location":`. -/
def c3chunk1 : MiniMaxStreamChunk :=
  { id := "r1", model := "mdl",
    choices :=
      [{ index := 0,
         delta :=
           { tool_calls :=
               some [{ index := 0, id := some "call_1",
                       function :=
                         some { name := some "get_weather",
                                arguments := some "\x7b\"location\":" } }] } }] }

/-- Second fragment under the same index: `"NY"`. -/
def c3chunk2 : MiniMaxStreamChunk :=
  { id := "r1", model := "mdl",
    choices :=
      [{ index := 0,
         delta :=
           { tool_calls :=
               some [{ index := 0,
                       function := some { arguments := some "\"NY\"" } }] } }] }

/-- Third fragment under the same index: the closing brace. -/
def c3chunk3 : MiniMaxStreamChunk :=
  { id := "r1", model := "mdl",
    choices :=
      [{ index := 0,
         delta :=
           { tool_calls :=
               some [{ index := 0,
                       function := some { arguments := some "\x7d" } }] } }] }

/-- The finish_reason chunk (no usage yet). -/
def c3chunk4 : MiniMaxStreamChunk :=
  { id := "r1", model := "mdl",
    choices := [{ index := 0, delta := {}, finish_reason := some "tool_calls" }] }

/-- The usage-bearing empty-choices termination chunk. -/
def c3chunk5 : MiniMaxStreamChunk :=
  { id := "r1", model := "mdl", choices := [],
    usage :=
      some { prompt_tokens := some 10, completion_tokens := some 5,
             total_tokens := some 15 } }

/-- The five-chunk scenario stream. -/
def c3chunks : List MiniMaxStreamChunk :=
  [c3chunk1, c3chunk2, c3chunk3, c3chunk4, c3chunk5]

/-- The synthesized response the scenario must produce. -/
def c3expected : MiniMaxResponse :=
  { id := "r1", object := "chat.completion", created := 0, model := "mdl",
    choices :=
      [{ index := 0,
         message :=
           { role := "assistant", content := none, refusal := none,
             tool_calls :=
               some [MmToolCall.function "call_1" "get_weather"
                 "\x7b\"location\":\"NY\"\x7d"] },
         logprobs := none,
         finish_reason := "tool_calls" }],
    usage := some { completion_tokens := 5, prompt_tokens := 10, total_tokens := 15 } }

/-- Claim C3: three tool-call argument fragments under one index, then a
finish_reason chunk, then a usage-bearing empty-choices chunk: `isFinal`
is true only on the last chunk, and the synthesized response carries
exactly one tool call whose arguments string is the in-order
concatenation of the fragments, with usage equal to the usage chunk's
values. -/
theorem minimax_stream_end_to_end_scenario :
    ((runResults (fun _ => "") (fun _ => 0) (initStreamState 0) c3chunks).map
        (fun r => r.isFinal) = [false, false, false, false, true]) ∧
    toProviderResponse
        (runStream (fun _ => "") (fun _ => 0) (initStreamState 0) c3chunks).1 0 =
      c3expected :=
  ⟨rfl, rfl⟩

/-- `toonStep` counts nothing exactly when the message is not eligible. -/
theorem toonStep_snd_eq_none (unwrap : String → String) (enc : Json → String)
    (count : String → Nat) (m : MmMessage) :
    ((toonStep unwrap enc count m).2 = none) ↔ toonEligible unwrap m = false := by
  cases m with
  | tool t =>
    obtain ⟨content, tid⟩ := t
    cases content with
    | str s =>
      cases hp : jsonParse (unwrap s) <;> simp [toonStep, toonEligible, hp]
    | parts ps => simp [toonStep, toonEligible]
  | developer m => simp [toonStep, toonEligible]
  | system m => simp [toonStep, toonEligible]
  | user m => simp [toonStep, toonEligible]
  | assistant m => simp [toonStep, toonEligible]
  | funcMsg c n => simp [toonStep, toonEligible]

/-- The aggregate tokensBefore total is `null` exactly when no
(before, after) pair was accumulated. -/
theorem toonStats_before_none (priceLookup : String → Option ℚ) (model : String)
    (counted : List (Nat × Nat)) :
    (toonStats priceLookup model counted).toonTokensBefore = none ↔ counted = [] := by
  simp only [toonStats]
  cases counted <;> simp

/-- The aggregate tokensAfter total is `null` exactly when no
(before, after) pair was accumulated. -/
theorem toonStats_after_none (priceLookup : String → Option ℚ) (model : String)
    (counted : List (Nat × Nat)) :
    (toonStats priceLookup model counted).toonTokensAfter = none ↔ counted = [] := by
  simp only [toonStats]
  cases counted <;> simp

/-- An ineligible message contributes nothing to the accumulated pairs. -/
theorem toonCounted_skips_ineligible (unwrap : String → String) (enc : Json → String)
    (count : String → Nat) (pre post : List MmMessage) (m : MmMessage)
    (hm : toonEligible unwrap m = false) :
    toonCounted unwrap enc count (pre ++ m :: post) =
      toonCounted unwrap enc count (pre ++ post) := by
  have hnone : (toonStep unwrap enc count m).2 = none :=
    (toonStep_snd_eq_none unwrap enc count m).mpr hm
  simp [toonCounted, List.map_append, List.filterMap_append, hnone]

/-- Claim C7: a tool-result message whose string content does not
JSON-parse after envelope unwrapping is left byte-for-byte unchanged by
the compression transform, contributes nothing to the before/after token
totals, and the totals are `null` exactly when no tool-result content
was eligible for compression. -/
theorem minimax_toon_compression_safety (unwrap : String → String) (enc : Json → String)
    (count : String → Nat) (priceLookup : String → Option ℚ) (model : String) :
    (∀ (msgs : List MmMessage) (k : Nat) (t : ToolMsg) (s : String),
      msgs[k]? = some (MmMessage.tool t) → t.content = StrOrParts.str s →
      jsonParse (unwrap s) = none →
      ((convertToolResultsToToon unwrap enc count priceLookup msgs model).1)[k]? =
        some (MmMessage.tool t)) ∧
    (∀ (pre post : List MmMessage) (m : MmMessage),
      toonEligible unwrap m = false →
      (convertToolResultsToToon unwrap enc count priceLookup (pre ++ m :: post) model).2 =
        (convertToolResultsToToon unwrap enc count priceLookup (pre ++ post) model).2) ∧
    (∀ msgs : List MmMessage,
      ((convertToolResultsToToon unwrap enc count priceLookup msgs model).2.toonTokensBefore
          = none ↔ ∀ m ∈ msgs, toonEligible unwrap m = false) ∧
      ((convertToolResultsToToon unwrap enc count priceLookup msgs model).2.toonTokensAfter
          = none ↔ ∀ m ∈ msgs, toonEligible unwrap m = false)) := by
  have hiff : ∀ msgs : List MmMessage,
      toonCounted unwrap enc count msgs = [] ↔
        ∀ m ∈ msgs, toonEligible unwrap m = false := by
    intro msgs
    rw [toonCounted, List.filterMap_eq_nil_iff]
    constructor
    · intro h m hm
      exact (toonStep_snd_eq_none unwrap enc count m).mp
        (h _ (List.mem_map_of_mem _ hm))
    · intro h x hx
      obtain ⟨m, hm, rfl⟩ := List.mem_map.mp hx
      exact (toonStep_snd_eq_none unwrap enc count m).mpr (h m hm)
  refine ⟨?_, ?_, ?_⟩
  · intro msgs k t s hk hcont hp
    show ((msgs.map (toonStep unwrap enc count)).map (·.1))[k]? = _
    rw [List.map_map, List.getElem?_map, hk]
    obtain ⟨content, tid⟩ := t
    simp only at hcont
    subst hcont
    simp [toonStep, hp]
  · intro pre post m hm
    show toonStats priceLookup model _ = toonStats priceLookup model _
    rw [toonCounted_skips_ineligible unwrap enc count pre post m hm]
  · intro msgs
    constructor
    · show (toonStats priceLookup model _).toonTokensBefore = none ↔ _
      rw [toonStats_before_none]
      exact hiff msgs
    · show (toonStats priceLookup model _).toonTokensAfter = none ↔ _
      rw [toonStats_after_none]
      exact hiff msgs

/-- One tool message with non-JSON content. -/
def c7msgs : List MmMessage :=
  [MmMessage.tool { content := .str "not json", tool_call_id := "t" }]

/-- Witness for C7 at `c7msgs`: the non-JSON tool result is untouched and
the totals are `null`. -/
theorem minimax_toon_compression_safety_witness :
    ((convertToolResultsToToon id (fun _ => "") (fun _ => 0) (fun _ => none)
        c7msgs "m").1)[0]? =
      some (MmMessage.tool { content := .str "not json", tool_call_id := "t" }) ∧
    (convertToolResultsToToon id (fun _ => "") (fun _ => 0) (fun _ => none)
        c7msgs "m").2.toonTokensBefore = none := by
  constructor
  · exact (minimax_toon_compression_safety id (fun _ => "") (fun _ => 0) (fun _ => none)
      "m").1 c7msgs 0 { content := .str "not json", tool_call_id := "t" } "not json"
      rfl rfl (by rfl)
  · exact ((minimax_toon_compression_safety id (fun _ => "") (fun _ => 0) (fun _ => none)
      "m").2.2 c7msgs).1.mpr
      (by
        intro m hm
        rw [List.mem_singleton.mp hm]
        rfl)

/-- A staged operation never replaces the held request. -/
theorem runStagedOp_request (a : RequestAdapterState) (op : StagedOp) :
    (runStagedOp a op).request = a.request := by
  cases op <;> rfl

/-- Claim C8 (amended): `getOriginalRequest()` returns the request the
adapter currently holds — any sequence of `setModel`, `updateToolResult`
and `toProviderRequest` calls leaves it equal to the constructor
argument with all fields unchanged, but `applyToonCompression` replaces
the held request with the compressed message list, which
`getOriginalRequest` subsequently returns. -/
theorem minimax_getOriginalRequest_staged_amended :
    (∀ (R : MiniMaxRequest) (ops : List StagedOp),
      getOriginalRequest (runStagedOps (createRequestAdapter R) ops) = R) ∧
    (∀ (unwrap : String → String) (enc : Json → String) (count : String → Nat)
      (priceLookup : String → Option ℚ) (a : RequestAdapterState) (model : String),
      getOriginalRequest (applyToonCompression unwrap enc count priceLookup a model).1 =
        { a.request with
            messages := (convertToolResultsToToon unwrap enc count priceLookup
              a.request.messages model).1 }) := by
  constructor
  · have hgen : ∀ (ops : List StagedOp) (a : RequestAdapterState),
        getOriginalRequest (runStagedOps a ops) = a.request := by
      intro ops
      induction ops with
      | nil => intro a; rfl
      | cons op ops ih =>
        intro a
        calc getOriginalRequest (runStagedOps a (op :: ops))
            = getOriginalRequest (runStagedOps (runStagedOp a op) ops) := rfl
          _ = (runStagedOp a op).request := ih (runStagedOp a op)
          _ = a.request := runStagedOp_request a op
    intro R ops
    exact hgen ops (createRequestAdapter R)
  · intro unwrap enc count priceLookup a model
    rfl

/-- A request holding one tool result with (compressible) JSON content. -/
def c8req : MiniMaxRequest :=
  { model := "m",
    messages := [MmMessage.tool { content := .str "\x7b\x7d", tool_call_id := "c" }] }

/-- Counterexample to claim C8 as stated: after `applyToonCompression`
(here with a TOON encoder rendering the empty object as `"TOON"`),
`getOriginalRequest()` no longer returns the request passed to the
constructor — the held request was replaced by the compressed one. -/
theorem minimax_getOriginalRequest_cex :
    getOriginalRequest
        (applyToonCompression id (fun _ => "TOON") (fun _ => 0) (fun _ => none)
          (createRequestAdapter c8req) "m").1 ≠ c8req := by
  intro h
  have h2 := congrArg
    (fun R : MiniMaxRequest => match R.messages with
      | MmMessage.tool t :: _ =>
        match t.content with
        | StrOrParts.str s => s
        | StrOrParts.parts _ => ""
      | _ => "") h
  exact absurd h2 (by decide)

/-- Projections of `setTiming` other than timing are the underlying ones. -/
theorem setTiming_responseId (st : StreamState) (t : StreamTiming) :
    (setTiming st t).responseId = st.responseId := rfl

theorem setTiming_model (st : StreamState) (t : StreamTiming) :
    (setTiming st t).model = st.model := rfl

theorem setTiming_text (st : StreamState) (t : StreamTiming) :
    (setTiming st t).text = st.text := rfl

theorem setTiming_toolCalls (st : StreamState) (t : StreamTiming) :
    (setTiming st t).toolCalls = st.toolCalls := rfl

theorem setTiming_rawToolCallEvents (st : StreamState) (t : StreamTiming) :
    (setTiming st t).rawToolCallEvents = st.rawToolCallEvents := rfl

theorem setTiming_usage (st : StreamState) (t : StreamTiming) :
    (setTiming st t).usage = st.usage := rfl

theorem setTiming_stopReason (st : StreamState) (t : StreamTiming) :
    (setTiming st t).stopReason = st.stopReason := rfl

theorem setTiming_toolCallIndices (st : StreamState) (t : StreamTiming) :
    (setTiming st t).toolCallIndices = st.toolCallIndices := rfl

/-- `processChunkCore` never reads the timing sub-record: running it on a
state with replaced timing replaces the timing of its output state and
changes nothing else. -/
theorem processChunkCore_setTiming (f : MiniMaxStreamChunk → String) (st : StreamState)
    (t : StreamTiming) (c : MiniMaxStreamChunk) :
    processChunkCore f (setTiming st t) c =
      (setTiming (processChunkCore f st c).1 t, (processChunkCore f st c).2) := by
  simp only [processChunkCore, setTiming_responseId, setTiming_model, setTiming_text,
    setTiming_toolCalls, setTiming_rawToolCallEvents, setTiming_usage,
    setTiming_stopReason, setTiming_toolCallIndices]
  cases hu : c.usage <;> cases hc : c.choices.head? <;>
    (repeat' split) <;> rfl

/-- Retiming before the `firstChunkTime` latch is retiming after it. -/
theorem bumpTiming_setTiming (st : StreamState) (t : StreamTiming) (n : Nat) :
    bumpTiming (setTiming st t) n = setTiming st (bumpFirst t n) := rfl

/-- Runs from states differing only in their timing sub-record, under
arbitrary (different) clocks, produce identical per-chunk results, and
final states again differing only in timing. -/
theorem runStream_setTiming (f : MiniMaxStreamChunk → String) :
    ∀ (chunks : List MiniMaxStreamChunk) (st : StreamState) (t : StreamTiming)
      (clock1 clock2 : Nat → Nat),
      ∃ t' : StreamTiming,
        (runStream f clock1 (setTiming st t) chunks).1 =
          setTiming ((runStream f clock2 st chunks).1) t' ∧
        (runStream f clock1 (setTiming st t) chunks).2 =
          (runStream f clock2 st chunks).2 := by
  intro chunks
  induction chunks with
  | nil =>
    intro st t clock1 clock2
    exact ⟨t, rfl, rfl⟩
  | cons c cs ih =>
    intro st t clock1 clock2
    have hstep : processChunk f (setTiming st t) c (clock1 0) =
        (setTiming (processChunk f st c (clock2 0)).1 (bumpFirst t (clock1 0)),
         (processChunk f st c (clock2 0)).2) := by
      rw [show processChunk f (setTiming st t) c (clock1 0) =
          processChunkCore f (setTiming st (bumpFirst t (clock1 0))) c from rfl]
      rw [processChunkCore_setTiming]
      rw [show processChunk f st c (clock2 0) =
          processChunkCore f (setTiming st (bumpFirst st.timing (clock2 0))) c from rfl]
      rw [processChunkCore_setTiming]
      rfl
    obtain ⟨t', h1, h2⟩ := ih (processChunk f st c (clock2 0)).1 (bumpFirst t (clock1 0))
      (fun j => clock1 (j + 1)) (fun j => clock2 (j + 1))
    refine ⟨t', ?_, ?_⟩
    · simp only [runStream]
      rw [hstep]
      exact h1
    · simp only [runStream]
      rw [hstep]
      rw [h2]

/-- Claim C9: feeding the same ordered chunk sequence to two separate
fresh stream adapter instances — constructed at arbitrary (possibly
different) `Date.now()` readings and observing arbitrary per-chunk clock
readings — and synthesizing with `toProviderResponse()` at the same
wall-clock second yields identical final responses. -/
theorem minimax_stream_two_run_determinism (f : MiniMaxStreamChunk → String)
    (clock1 clock2 : Nat → Nat) (start1 start2 : Nat)
    (chunks : List MiniMaxStreamChunk) (nowSec : Nat) :
    toProviderResponse (runStream f clock1 (initStreamState start1) chunks).1 nowSec =
      toProviderResponse (runStream f clock2 (initStreamState start2) chunks).1 nowSec := by
  have hinit : initStreamState start1 =
      setTiming (initStreamState start2)
        { startTime := start1, firstChunkTime := none } := rfl
  rw [hinit]
  obtain ⟨t', h1, _⟩ := runStream_setTiming f chunks (initStreamState start2)
    { startTime := start1, firstChunkTime := none } clock1 clock2
  rw [h1]
  rfl
